import Mathlib

/-
  Verification of the dom.js attribute subsystem (Attributes / Attr /
  reflectAttribute) against its natural-language specification.

  The JavaScript source is shallowly embedded: the mutable `Attributes`
  object of the source becomes an explicit state record, the `Attr`
  objects it aliases become entries of an id-indexed arena (`store`), and
  JS object maps (`byQName`, `byNSAndLName`, `_attrDecls`) become
  insertion-ordered association lists, matching the insertion-ordered
  key enumeration of `O.keys` on non-integer string keys.  Onchange hooks
  and document mutation notifications are external collaborators; their
  invocations are recorded as an event trace (most recent first).
-/

set_option autoImplicit false

/-- A JavaScript value as it flows through this module: attribute values are
normally strings, but `undefined`, `null` and booleans also reach these code
paths (e.g. a fresh `Attr`'s `data` is `undefined`, `getAttribute` returns
`null` on a miss, and a reflected boolean setter passes a boolean through). -/
inductive JSVal where
  | undef
  | null
  | str (s : String)
  | bool (b : Bool)
deriving DecidableEq, Repr

/-- Exceptions thrown by plain JavaScript evaluation (here: calling
`toLowerCase` on a non-string receiver). -/
inductive JSErr where
  | typeError
deriving DecidableEq, Repr

/-- The DOM exceptions raised by the validation code of `setAttribute` /
`setAttributeNS` (`InvalidCharacterError()` and `NamespaceError()`). -/
inductive DOMErr where
  | invalidCharacter
  | namespaceErr
deriving DecidableEq, Repr

/-- An attribute declaration object (see the source's long comment block).
`onchange` in the source is an optional function; only its presence is
observable in our event-trace model, so it is modelled as a flag.
`legalValues` is the lowercase-to-canonical map of enumerated attributes.
`boolean` is the boolean-attribute flag.  The optional hand-written
`contentToIDL` / `idlToContent` conversion functions are not populated by any
declaration in this development (the only conversion exercised is the one
`reflectAttribute` synthesizes from `legalValues`). -/
structure Decl where
  onchange : Bool := false
  legalValues : Option (List (String × String)) := none
  boolean : Bool := false
deriving DecidableEq, Repr

/-- The state of one `Attr` object (source: the `Attr` constructor).
`pfx` embeds the source's `prefix` field (the constructor normalizes it via
`prefix || null`); `namespaceURI` is `namespace || null`.  `data` is the
stored value behind the `value` accessor, initially `undefined`.  `idlvalue`
is the stray own property that the raw `set` assigns: the `Attr` prototype
declares no accessor for it, so it is a plain field initialized to
`undefined` and disconnected from `data`. -/
structure AttrData where
  declaration : Option Decl
  localName : String
  pfx : Option String
  namespaceURI : JSVal
  data : JSVal
  idlvalue : JSVal
deriving DecidableEq, Repr

/-- A `byQName` map entry: either a single `Attr` reference or an array of
them (the source stores `attr or array of attrs`). -/
inductive QEntry where
  | one (id : Nat)
  | arr (ids : List Nat)
deriving DecidableEq, Repr

/-- A recorded external side effect: an onchange hook invocation (the
element argument is the constant owning element and is omitted) or a
document mutation notification. -/
inductive Event where
  | onchange (localName oldValue newValue : JSVal)
  | mutateAttr (id : Nat) (oldValue : JSVal)
  | mutateRemoveAttr (id : Nat)
deriving DecidableEq, Repr

/-- The state of one `Attributes` collection together with the relevant
fields of its owning element (`isHTML`, `_attrDecls`, `rooted`) and the
event trace of hook/notification calls (most recent first).  `store` is the
arena giving `Attr` objects their identity. -/
structure Attributes where
  isHTML : Bool
  attrDecls : List (String × Decl)
  byQName : List (String × QEntry)
  byNSAndLName : List (String × Nat)
  keys : List String
  length : Nat
  store : List (Nat × AttrData)
  nextId : Nat
  events : List Event
  rooted : Bool
deriving DecidableEq, Repr

section AssocList

variable {κ : Type} {α : Type} [DecidableEq κ]

/-- Lookup in an insertion-ordered association list (JS property read). -/
def alookup (k : κ) : List (κ × α) → Option α
  | [] => none
  | (k', v) :: rest => if k' = k then some v else alookup k rest

/-- Update-or-append in an insertion-ordered association list (JS property
write: an existing key keeps its enumeration position, a new key is
appended). -/
def aset (k : κ) (v : α) : List (κ × α) → List (κ × α)
  | [] => [(k, v)]
  | (k', v') :: rest => if k' = k then (k, v) :: rest else (k', v') :: aset k v rest

/-- Key removal from an association list (JS `delete`), preserving the
enumeration order of the remaining keys. -/
def aerase (k : κ) : List (κ × α) → List (κ × α)
  | [] => []
  | (k', v') :: rest => if k' = k then rest else (k', v') :: aerase k rest

end AssocList

/-- JavaScript truthiness for the values of `JSVal`. -/
def jsTruthy : JSVal → Bool
  | JSVal.undef => false
  | JSVal.null => false
  | JSVal.str s => !(s.isEmpty)
  | JSVal.bool b => b

/-- The JavaScript `a || b` idiom. -/
def jsOr (a b : JSVal) : JSVal := if jsTruthy a then a else b

/-- String coercion applied by JavaScript `+` when concatenating a value
with a string (so `null + "|"` is `"null|"`). -/
def jsString : JSVal → String
  | JSVal.undef => "undefined"
  | JSVal.null => "null"
  | JSVal.str s => s
  | JSVal.bool b => if b then "true" else "false"

/-- JavaScript `toLowerCase` for the ASCII names this module handles (the
`toLowerCase(qname)` normalization of the source), written over the
character list so that it evaluates by kernel reduction. -/
def jsToLower (s : String) : String := String.mk (s.toList.map Char.toLower)

/-- The source's `this.declaration && this.declaration.onchange` test. -/
def declOnchange : Option Decl → Bool
  | some d => d.onchange
  | none => false

/-- The `Attr.name` accessor: `prefix ? prefix + ":" + localName : localName`
(an empty-string prefix is falsy). -/
def attrName (a : AttrData) : String :=
  match a.pfx with
  | some p => if p = "" then a.localName else p ++ ":" ++ a.localName
  | none => a.localName

/-- The `Attr` constructor (source: `function Attr(elt, decl, lname, prefix,
namespace)`), with the owning element left implicit in the collection
state.  `prefix || null` and `namespace || null` are applied as in the
source. -/
def mkAttr (decl : Option Decl) (lname : String) (pfx : Option String) (ns : JSVal) : AttrData :=
  { declaration := decl
    localName := lname
    pfx := match pfx with
           | some "" => none
           | x => x
    namespaceURI := jsOr ns JSVal.null
    data := JSVal.undef
    idlvalue := JSVal.undef }

/-- Modelled from the spec: the validation utilities `isLegalName` /
`isLegalQualifiedName` ("per XML Name production rules") are external
collaborators not present in src.  NameStartChar, restricted to ASCII. -/
def nameStartChar (c : Char) : Bool :=
  c.isAlpha || c = '_' || c = ':'

/-- Modelled from the spec: XML NameChar, restricted to ASCII. -/
def nameChar (c : Char) : Bool :=
  nameStartChar c || c.isDigit || c = '-' || c = '.'

/-- Modelled from the spec: `isLegalName` — a syntactically legal XML Name. -/
def isValidName (s : String) : Bool :=
  match s.toList with
  | [] => false
  | c :: cs => nameStartChar c && cs.all nameChar

/-- An XML NCName: a nonempty Name with no colon. -/
def isNCName (s : String) : Bool :=
  match s.toList with
  | [] => false
  | c :: cs => nameStartChar c && c ≠ ':' && cs.all (fun d => nameChar d && d ≠ ':')

/-- Modelled from the spec: `isLegalQualifiedName` — an XML QName:
either an NCName, or `NCName ":" NCName`. -/
def isValidQName (s : String) : Bool :=
  match (s.toList).findIdx? (· = ':') with
  | none => isNCName s
  | some i =>
    isNCName (String.mk ((s.toList).take i)) &&
    isNCName (String.mk ((s.toList).drop (i + 1)))

/-- The `S.indexOf(qname, ":")` split of `setAttributeNS`: a missing colon
yields no prefix; otherwise the string is split at the first colon. -/
def splitAtColon (s : String) : Option String × String :=
  match (s.toList).findIdx? (· = ':') with
  | none => (none, s)
  | some i => (some (String.mk ((s.toList).take i)), String.mk ((s.toList).drop (i + 1)))

/-- The XML namespace URI constant (external constant of the module). -/
def XML_NAMESPACE : String := "http://www.w3.org/XML/1998/namespace"

/-- The XMLNS namespace URI constant (external constant of the module). -/
def XMLNS_NAMESPACE : String := "http://www.w3.org/2000/xmlns/"

namespace Attributes

/-- The `Attributes` constructor: empty maps, length 0, plus the owning
element's relevant fields. -/
def mkAttributes (isHTML : Bool) (decls : List (String × Decl)) : Attributes :=
  { isHTML := isHTML
    attrDecls := decls
    byQName := []
    byNSAndLName := []
    keys := []
    length := 0
    store := []
    nextId := 0
    events := []
    rooted := false }

/-- The per-call case normalization `if (this.element.isHTML) qname =
toLowerCase(qname)` that `getAttribute`, `hasAttribute`, `setAttribute`
and `removeAttribute` each perform. -/
def normalizeQName (st : Attributes) (qname : String) : String :=
  if st.isHTML then jsToLower qname else qname

/-- The `Attr.value` setter: the single node-level value-mutation funnel.
Setting the current value again is a no-op; otherwise the value is stored,
the declaration's onchange hook runs, and a mutation event is generated if
the element is rooted.  The trace is most-recent-first, so the later
mutation event is consed in front of the onchange event. -/
def setAttrValue (st : Attributes) (id : Nat) (v : JSVal) : Attributes :=
  match alookup id st.store with
  | none => st
  | some a =>
    if a.data = v then st
    else
      { st with
        store := aset id { a with data := v } st.store
        events :=
          (if st.rooted then [Event.mutateAttr id a.data] else []) ++
          (if declOnchange a.declaration then
            [Event.onchange (JSVal.str a.localName) a.data v]
          else []) ++
          st.events }

/-- The `attr.idlvalue = value` assignment of the raw `set`: the `Attr`
prototype has no `idlvalue` accessor, so this writes a plain own property
and triggers no hook or notification. -/
def setIdlvalue (st : Attributes) (id : Nat) (v : JSVal) : Attributes :=
  match alookup id st.store with
  | none => st
  | some a => { st with store := aset id { a with idlvalue := v } st.store }

/-- The first element of a `byQName` entry (`if (isArray(attr)) attr =
attr[0]`).  The default for an empty array is an artifact: qname buckets
that are arrays always hold at least two entries in reachable states. -/
def firstOf : QEntry → Nat
  | QEntry.one id => id
  | QEntry.arr l => l.headD 0

/-- The ids referenced by a `byQName` entry. -/
def entryIds : QEntry → List Nat
  | QEntry.one id => [id]
  | QEntry.arr l => l

/-- Source `getAttribute(qname)`: lowercases for HTML elements, takes the
first entry of the qname bucket, and returns `attr.value` (the node's
`data`), or `null` when there is no bucket. -/
def getAttribute (st : Attributes) (qname : String) : JSVal :=
  match alookup (normalizeQName st qname) st.byQName with
  | none => JSVal.null
  | some e =>
    match alookup (firstOf e) st.store with
    | none => JSVal.undef
    | some a => a.data

/-- Source `getAttributeNS(ns, lname)`: a direct lookup of
`ns + "|" + lname` (raw string coercion, no normalization of `null`). -/
def getAttributeNS (st : Attributes) (ns : JSVal) (lname : String) : JSVal :=
  match alookup (jsString ns ++ "|" ++ lname) st.byNSAndLName with
  | none => JSVal.null
  | some id =>
    match alookup id st.store with
    | none => JSVal.undef
    | some a => a.data

/-- Source `hasAttribute(qname)`. -/
def hasAttribute (st : Attributes) (qname : String) : Bool :=
  (alookup (normalizeQName st qname) st.byQName).isSome

/-- Source `hasAttributeNS(ns, lname)`: raw `ns + "|" + lname` key. -/
def hasAttributeNS (st : Attributes) (ns : JSVal) (lname : String) : Bool :=
  (alookup (jsString ns ++ "|" ++ lname) st.byNSAndLName).isSome

/-- Source `item(index)`: `this.byNSAndLName[this.keys[index]]`. -/
def item (st : Attributes) (index : Nat) : Option Nat :=
  match st.keys.get? index with
  | none => none
  | some k => alookup k st.byNSAndLName

/-- Source `_newAttr(qname)`: creates an `Attr` carrying the element's
declaration for `qname`, registers it under `byQName[qname]` and
`byNSAndLName["|" + qname]`, and refreshes `keys` and `length`.  Returns
the fresh node's id together with the updated state. -/
def newAttr (st : Attributes) (qname : String) : Nat × Attributes :=
  let a := mkAttr (alookup qname st.attrDecls) qname none JSVal.undef
  let id := st.nextId
  let byNS := aset ("|" ++ qname) id st.byNSAndLName
  (id,
   { st with
     store := st.store ++ [(id, a)]
     nextId := id + 1
     byQName := aset qname (QEntry.one id) st.byQName
     byNSAndLName := byNS
     keys := byNS.map Prod.fst
     length := (byNS.map Prod.fst).length })

/-- Source `_addQName(attr)`: binds a node under its qualified name,
growing the bucket into an array when the name is already taken. -/
def addQName (st : Attributes) (id : Nat) : Attributes :=
  match alookup id st.store with
  | none => st
  | some a =>
    let q := attrName a
    match alookup q st.byQName with
    | none => { st with byQName := aset q (QEntry.one id) st.byQName }
    | some (QEntry.one e) => { st with byQName := aset q (QEntry.arr [e, id]) st.byQName }
    | some (QEntry.arr l) => { st with byQName := aset q (QEntry.arr (l ++ [id])) st.byQName }

/-- Source `_removeQName(attr)`: unbinds a node from its qualified-name
bucket (single-entry deletion, pair promotion, or in-place splice).  The
source's `assert` branches are never taken in the states exercised here. -/
def removeQName (st : Attributes) (id : Nat) : Attributes :=
  match alookup id st.store with
  | none => st
  | some a =>
    let q := attrName a
    match alookup q st.byQName with
    | some (QEntry.arr l) =>
      let idx := l.findIdx (· = id)
      if l.length = 2 then
        { st with byQName := aset q (QEntry.one (l.getD (1 - idx) 0)) st.byQName }
      else
        { st with byQName := aset q (QEntry.arr (l.eraseIdx idx)) st.byQName }
    | some (QEntry.one _) => { st with byQName := aerase q st.byQName }
    | none => st

/-- Source `setAttribute(qname, value)`: name validation, HTML
lowercasing, the reserved-"xmlns" check on the normalized name, then
lookup by qualified name — mutating the first existing match or creating a
fresh node — and finally assignment through the `Attr.value` funnel. -/
def setAttribute (st : Attributes) (qname : String) (value : JSVal) :
    Except DOMErr Attributes :=
  if !(isValidName qname) then Except.error DOMErr.invalidCharacter
  else if (normalizeQName st qname).take 5 = "xmlns" then
    Except.error DOMErr.namespaceErr
  else
    match alookup (normalizeQName st qname) st.byQName with
    | none =>
      Except.ok
        (setAttrValue (newAttr st (normalizeQName st qname)).2
          (newAttr st (normalizeQName st qname)).1 value)
    | some e => Except.ok (setAttrValue st (firstOf e) value)

/-- Source `setAttributeNS(ns, qname, value)`: validation, prefix split,
key construction by raw string concatenation, the `"" -> null` namespace
normalization, the namespace well-formedness checks, then either creation
(with declaration resolution for non-prefixed names) or prefix rebinding of
the existing node, and finally assignment through the `Attr.value`
funnel. -/
def setAttributeNS (st : Attributes) (ns0 : JSVal) (qname : String) (value : JSVal) :
    Except DOMErr Attributes :=
  if !(isValidName qname) then Except.error DOMErr.invalidCharacter
  else if !(isValidQName qname) then Except.error DOMErr.namespaceErr
  else
    let p := splitAtColon qname
    let pfx := p.1
    let lname := p.2
    let key := jsString ns0 ++ "|" ++ lname
    let ns := if ns0 = JSVal.str "" then JSVal.null else ns0
    if (pfx ≠ none ∧ ns = JSVal.null) ∨
       (pfx = some "xml" ∧ ns ≠ JSVal.str XML_NAMESPACE) ∨
       ((qname = "xmlns" ∨ pfx = some "xmlns") ∧ ns ≠ JSVal.str XMLNS_NAMESPACE) ∨
       (ns = JSVal.str XMLNS_NAMESPACE ∧ ¬(qname = "xmlns" ∨ pfx = some "xmlns")) then
      Except.error DOMErr.namespaceErr
    else
      match alookup key st.byNSAndLName with
      | none =>
        let decl := match pfx with
                    | some _ => none
                    | none => alookup lname st.attrDecls
        let a := mkAttr decl lname pfx ns
        let id := st.nextId
        let byNS := aset key id st.byNSAndLName
        let st1 := { st with
          store := st.store ++ [(id, a)]
          nextId := id + 1
          byNSAndLName := byNS
          keys := byNS.map Prod.fst
          length := (byNS.map Prod.fst).length }
        let st2 := addQName st1 id
        Except.ok (setAttrValue st2 id value)
      | some id =>
        match alookup id st.store with
        | none => Except.ok (setAttrValue st id value)
        | some a =>
          if a.pfx ≠ pfx then
            let st1 := removeQName st id
            let st2 := { st1 with store := aset id { a with pfx := pfx } st1.store }
            let st3 := addQName st2 id
            Except.ok (setAttrValue st3 id value)
          else Except.ok (setAttrValue st id value)

/-- Source `removeAttribute(qname)`: drops the first matching node from
its qname bucket, removes it from the namespace index under the key
`(attr.namespaceURI || "") + "|" + attr.localName`, refreshes `keys` and
`length`, then fires the onchange hook — note the source passes
`this.localName` and `this.idlvalue` where `this` is the *collection*, so
both arguments are `undefined` — and the mutation notification if
rooted. -/
def removeAttribute (st : Attributes) (qname : String) : Attributes :=
  let q := normalizeQName st qname
  match alookup q st.byQName with
  | none => st
  | some entry =>
    let p : Nat × Attributes :=
      match entry with
      | QEntry.arr l =>
        if l.length > 2 then
          (l.headD 0, { st with byQName := aset q (QEntry.arr l.tail) st.byQName })
        else
          (l.headD 0, { st with byQName := aset q (QEntry.one (l.getD 1 0)) st.byQName })
      | QEntry.one id => (id, { st with byQName := aerase q st.byQName })
    let id := p.1
    let st1 := p.2
    match alookup id st1.store with
    | none => st1
    | some a =>
      let key := jsString (jsOr a.namespaceURI (JSVal.str "")) ++ "|" ++ a.localName
      let byNS := aerase key st1.byNSAndLName
      let st2 := { st1 with
        byNSAndLName := byNS
        keys := byNS.map Prod.fst
        length := (byNS.map Prod.fst).length }
      let st3 :=
        if declOnchange a.declaration then
          { st2 with events := Event.onchange JSVal.undef JSVal.undef JSVal.null :: st2.events }
        else st2
      if st3.rooted then
        { st3 with events := Event.mutateRemoveAttr id :: st3.events }
      else st3

/-- Source `removeAttributeNS(ns, lname)`: direct namespace-index deletion
under the normalized key `(ns || "") + "|" + lname`, then `_removeQName`,
then the same (collection-`this`) onchange call and notification as
`removeAttribute`. -/
def removeAttributeNS (st : Attributes) (ns : JSVal) (lname : String) : Attributes :=
  let key := jsString (jsOr ns (JSVal.str "")) ++ "|" ++ lname
  match alookup key st.byNSAndLName with
  | none => st
  | some id =>
    match alookup id st.store with
    | none => st
    | some a =>
      let byNS := aerase key st.byNSAndLName
      let st1 := { st with
        byNSAndLName := byNS
        keys := byNS.map Prod.fst
        length := (byNS.map Prod.fst).length }
      let st2 := removeQName st1 id
      let st3 :=
        if declOnchange a.declaration then
          { st2 with events := Event.onchange JSVal.undef JSVal.undef JSVal.null :: st2.events }
        else st2
      if st3.rooted then
        { st3 with events := Event.mutateRemoveAttr id :: st3.events }
      else st3

/-- Source raw `get(qname)` (the reflected-property fast path): assumes a
pre-normalized name, returns `""` when the bucket is missing, and otherwise
reads `attr.idlvalue` — a property the simplified `Attr` class no longer
maintains (only `value`/`data` is), so it is `undefined` unless the raw
`set` wrote it.  An array bucket is not unwrapped (`attr.idlvalue` on an
array object is `undefined`). -/
def get (st : Attributes) (qname : String) : JSVal :=
  match alookup qname st.byQName with
  | none => JSVal.str ""
  | some (QEntry.one id) =>
    match alookup id st.store with
    | none => JSVal.undef
    | some a => a.idlvalue
  | some (QEntry.arr _) => JSVal.undef

/-- Source raw `set(qname, value)` (the reflected-property fast path):
finds or creates the node by qualified name and assigns `attr.idlvalue` —
a plain own property, so the node's `data` and the onchange/notification
funnel are untouched.  On an array bucket the assignment lands on the
array object itself and changes no node. -/
def set (st : Attributes) (qname : String) (value : JSVal) : Attributes :=
  match alookup qname st.byQName with
  | none =>
    let p := newAttr st qname
    setIdlvalue p.2 p.1 value
  | some (QEntry.one id) => setIdlvalue st id value
  | some (QEntry.arr _) => st

end Attributes

/-- The synthesized `contentToIDL` that `reflectAttribute` installs for a
declaration with `legalValues`:
`function(v) { return declaration.legalValues[v.toLowerCase()] || ""; }`.
Calling `toLowerCase` on a non-string receiver (in particular the `null`
that `getAttribute` returns for a missing attribute) throws a TypeError. -/
def contentToIDLEnum (lvs : List (String × String)) (v : JSVal) : Except JSErr JSVal :=
  match v with
  | JSVal.str s => Except.ok (JSVal.str ((alookup (jsToLower s) lvs).getD ""))
  | _ => Except.error JSErr.typeError

/-- The getter that `reflectAttribute` generates for a declaration: with a
`contentToIDL` conversion (here: exactly the `legalValues`-synthesized one)
it returns `contentToIDL(this.getAttribute(name))`; otherwise it returns
`this.getAttribute(name) || ""`. -/
def reflGetter (decl : Decl) (name : String) (st : Attributes) : Except JSErr JSVal :=
  match decl.legalValues with
  | some lvs => contentToIDLEnum lvs (Attributes.getAttribute st name)
  | none => Except.ok (jsOr (Attributes.getAttribute st name) (JSVal.str ""))

set_option linter.unusedVariables false in
/-- The setter that `reflectAttribute` generates for a declaration without
an `idlToContent` conversion (none of the declarations here has one):
`function(v) { this.setAttribute(name, v); }`.  Note that the declaration —
in particular its `boolean` flag — is not consulted anywhere on this
path. -/
def reflSetter (decl : Decl) (name : String) (v : JSVal) (st : Attributes) :
    Except DOMErr Attributes :=
  Attributes.setAttribute st name v

open Attributes

deriving instance DecidableEq for Except

/-- The set of node ids reachable from the qualified-name index. -/
def qnameIds (st : Attributes) : List Nat :=
  (st.byQName.map (fun p => entryIds p.2)).flatten

/-- The set of node ids held by the namespace index. -/
def nsIds (st : Attributes) : List Nat := st.byNSAndLName.map Prod.snd

/-- The agreement invariant stated by the spec: the qualified-name index,
the namespace index and the key sequence cover the same set of live nodes,
and `length` equals the number of namespace-index entries. -/
def agree (st : Attributes) : Bool :=
  (qnameIds st).all (fun id => (nsIds st).contains id) &&
  (nsIds st).all (fun id => (qnameIds st).contains id) &&
  (st.length == st.byNSAndLName.length) &&
  (st.keys == st.byNSAndLName.map Prod.fst)

/-- The C3 scenario of the spec: `setNS(nsA, "foo", "x")` followed by the
plain `set("foo", "y")` on an initially empty non-HTML collection. -/
def c3trace : Except DOMErr Attributes := do
  let st1 ← setAttributeNS (mkAttributes false []) (JSVal.str "http://a") "foo"
      (JSVal.str "x")
  setAttribute st1 "foo" (JSVal.str "y")

/-- The C8 declaration: a reflected boolean attribute (`boolean: true`)
bound to the content attribute `"disabled"`. -/
def disabledDecl : Decl := { boolean := true }

/-- The C9 declaration: the enumerated `"dir"` attribute with legal values
`ltr`, `rtl`, `auto`. -/
def dirDecl : Decl :=
  { legalValues := some [("ltr", "ltr"), ("rtl", "rtl"), ("auto", "auto")] }

/-- Well-formedness facts that hold in every reachable collection state and
that the general theorems assume: every store id is below `nextId`, every
node referenced by the qualified-name index is present in the store, and
qualified-name buckets are nonempty. -/
def WF (st : Attributes) : Prop :=
  (∀ p ∈ st.store, p.1 < st.nextId) ∧
  (∀ p ∈ st.byQName, ∀ id ∈ entryIds p.2, alookup id st.store ≠ none) ∧
  (∀ p ∈ st.byQName, entryIds p.2 ≠ [])

section AssocList

variable {κ : Type} {α : Type} [DecidableEq κ]

theorem alookup_aset_self (k : κ) (v : α) (l : List (κ × α)) :
    alookup k (aset k v l) = some v := by
  induction l with
  | nil => simp [alookup, aset]
  | cons p rest ih =>
    by_cases h : p.1 = k
    · simp [aset, alookup, h]
    · simp [aset, alookup, h, ih]

theorem alookup_aset_ne (k k' : κ) (v : α) (l : List (κ × α)) (h : k' ≠ k) :
    alookup k' (aset k v l) = alookup k' l := by
  have h' : ¬ k = k' := fun e => h e.symm
  induction l with
  | nil => simp [alookup, aset, h']
  | cons p rest ih =>
    by_cases hp : p.1 = k
    · have hpk : ¬ p.1 = k' := hp ▸ h'
      simp [aset, alookup, hp, h', hpk]
    · by_cases hp' : p.1 = k'
      · simp [aset, alookup, hp, hp', h]
      · simp [aset, alookup, hp, hp', ih]

theorem alookup_append_left (k : κ) (l₁ l₂ : List (κ × α)) (h : alookup k l₁ = none) :
    alookup k (l₁ ++ l₂) = alookup k l₂ := by
  induction l₁ with
  | nil => simp
  | cons p rest ih =>
    by_cases hp : p.1 = k
    · simp [alookup, hp] at h
    · simp [alookup, hp] at h ⊢
      exact ih h

theorem alookup_eq_none (k : κ) (l : List (κ × α)) (h : ∀ p ∈ l, p.1 ≠ k) :
    alookup k l = none := by
  induction l with
  | nil => rfl
  | cons p rest ih =>
    simp only [alookup, if_neg (h p (by simp))]
    exact ih fun q hq => h q (by simp [hq])

theorem alookup_mem (k : κ) (v : α) (l : List (κ × α)) (h : alookup k l = some v) :
    (k, v) ∈ l := by
  induction l with
  | nil => simp [alookup] at h
  | cons p rest ih =>
    by_cases hp : p.1 = k
    · simp only [alookup, if_pos hp] at h
      cases h
      rw [← hp]
      exact List.mem_cons_self _ _
    · simp only [alookup, if_neg hp] at h
      exact List.mem_cons_of_mem _ (ih h)

end AssocList


theorem setAttrValue_byQName (st : Attributes) (id : Nat) (v : JSVal) :
    (setAttrValue st id v).byQName = st.byQName := by
  unfold setAttrValue
  split
  · rfl
  · split <;> rfl

theorem setAttrValue_isHTML (st : Attributes) (id : Nat) (v : JSVal) :
    (setAttrValue st id v).isHTML = st.isHTML := by
  unfold setAttrValue
  split
  · rfl
  · split <;> rfl

theorem setAttrValue_self (st : Attributes) (id : Nat) (v : JSVal) (a : AttrData)
    (hfind : alookup id st.store = some a) (hdata : a.data = v) :
    setAttrValue st id v = st := by
  unfold setAttrValue
  rw [hfind]
  simp [hdata]

theorem setAttrValue_store (st : Attributes) (id : Nat) (v : JSVal) (a : AttrData)
    (hfind : alookup id st.store = some a) (hdata : ¬ a.data = v) :
    (setAttrValue st id v).store = aset id { a with data := v } st.store := by
  unfold setAttrValue
  rw [hfind]
  simp [hdata]

theorem firstOf_mem (e : QEntry) (h : entryIds e ≠ []) : firstOf e ∈ entryIds e := by
  cases e with
  | one id => simp [firstOf, entryIds]
  | arr l =>
    cases l with
    | nil => simp [entryIds] at h
    | cons x xs => simp [firstOf, entryIds]

theorem normalizeQName_of_isHTML_eq (st st' : Attributes) (q : String)
    (h : st'.isHTML = st.isHTML) :
    normalizeQName st' q = normalizeQName st q := by
  unfold normalizeQName
  rw [h]

/-- C1: for every valid qualified name `q` and every string value `v`, a
`setAttribute(q, v)` call that succeeds on a well-formed collection,
followed by `getAttribute(q)` on the resulting collection, returns exactly
`v`; both operations case-normalize `q` the same way (lowercasing exactly
when the owning element is HTML-flavored). -/
theorem c1_set_then_get (st st' : Attributes) (q v : String) (hwf : WF st)
    (h : setAttribute st q (JSVal.str v) = Except.ok st') :
    getAttribute st' q = JSVal.str v := by
  obtain ⟨hlt, href, hnonnil⟩ := hwf
  unfold setAttribute at h
  split at h
  · exact Except.noConfusion h
  · split at h
    · exact Except.noConfusion h
    · split at h
      case _ heq =>
        injection h with h
        subst h
        rw [show (newAttr st (normalizeQName st q)).1 = st.nextId from rfl]
        have hfresh : alookup st.nextId st.store = none :=
          alookup_eq_none _ _ (fun p hp => Nat.ne_of_lt (hlt p hp))
        have hfind : alookup st.nextId (newAttr st (normalizeQName st q)).2.store =
            some (mkAttr (alookup (normalizeQName st q) st.attrDecls)
              (normalizeQName st q) none JSVal.undef) := by
          show alookup st.nextId
            (st.store ++ [(st.nextId,
              mkAttr (alookup (normalizeQName st q) st.attrDecls)
                (normalizeQName st q) none JSVal.undef)]) = _
          rw [alookup_append_left _ _ _ hfresh]
          simp [alookup]
        have hdata : ¬ (mkAttr (alookup (normalizeQName st q) st.attrDecls)
            (normalizeQName st q) none JSVal.undef).data = JSVal.str v := by
          simp [mkAttr]
        have hhtml :
            (setAttrValue (newAttr st (normalizeQName st q)).2
              st.nextId (JSVal.str v)).isHTML = st.isHTML := by
          rw [setAttrValue_isHTML]
          rfl
        have hn : normalizeQName
            (setAttrValue (newAttr st (normalizeQName st q)).2
              st.nextId (JSVal.str v)) q =
            normalizeQName st q :=
          normalizeQName_of_isHTML_eq st _ q hhtml
        have hbq : alookup (normalizeQName st q)
            (setAttrValue (newAttr st (normalizeQName st q)).2
              st.nextId (JSVal.str v)).byQName =
            some (QEntry.one st.nextId) := by
          rw [setAttrValue_byQName]
          show alookup (normalizeQName st q)
            (aset (normalizeQName st q) (QEntry.one st.nextId) st.byQName) = _
          rw [alookup_aset_self]
        have hst : alookup st.nextId
            (setAttrValue (newAttr st (normalizeQName st q)).2
              st.nextId (JSVal.str v)).store =
            some { mkAttr (alookup (normalizeQName st q) st.attrDecls)
              (normalizeQName st q) none JSVal.undef with data := JSVal.str v } := by
          rw [setAttrValue_store _ _ _ _ hfind hdata]
          rw [alookup_aset_self]
        simp only [getAttribute, hn, hbq, firstOf, hst]
      case _ e heq =>
        injection h with h
        subst h
        have hmem : (normalizeQName st q, e) ∈ st.byQName := alookup_mem _ _ _ heq
        have hsome : alookup (firstOf e) st.store ≠ none :=
          href _ hmem (firstOf e) (firstOf_mem e (hnonnil _ hmem))
        cases hfind : alookup (firstOf e) st.store with
        | none => exact absurd hfind hsome
        | some a =>
          by_cases hdata : a.data = JSVal.str v
          · rw [setAttrValue_self st _ _ a hfind hdata]
            simp only [getAttribute, heq, hfind, hdata]
          · have hhtml : (setAttrValue st (firstOf e) (JSVal.str v)).isHTML = st.isHTML :=
              setAttrValue_isHTML _ _ _
            have hn : normalizeQName (setAttrValue st (firstOf e) (JSVal.str v)) q =
                normalizeQName st q := normalizeQName_of_isHTML_eq st _ q hhtml
            have hbq : alookup (normalizeQName st q)
                (setAttrValue st (firstOf e) (JSVal.str v)).byQName = some e := by
              rw [setAttrValue_byQName]
              exact heq
            have hst : alookup (firstOf e)
                (setAttrValue st (firstOf e) (JSVal.str v)).store =
                some { a with data := JSVal.str v } := by
              rw [setAttrValue_store _ _ _ _ hfind hdata]
              rw [alookup_aset_self]
            simp only [getAttribute, hn, hbq, hst]

/-- Witness for C1 at a concrete input: on the empty HTML collection,
`setAttribute("Foo", "bar")` succeeds and `getAttribute("Foo")` returns
`"bar"`. -/
theorem c1_witness :
    (setAttribute (mkAttributes true []) "Foo" (JSVal.str "bar")).map
      (fun st => getAttribute st "Foo") = Except.ok (JSVal.str "bar") := by
  cases h : setAttribute (mkAttributes true []) "Foo" (JSVal.str "bar") with
  | error e => cases e <;> exact absurd h (by decide)
  | ok st' =>
    simp only [Except.map]
    rw [c1_set_then_get (mkAttributes true []) st' "Foo" "bar"
      (by unfold WF; decide) h]

/-- C10: the reserved-"xmlns" rejection of the plain `setAttribute` is
applied to the case-normalized name, so its case-sensitivity depends on
the document flavor.  For any valid name whose lowercase form begins with
`"xmlns"`: on an HTML-flavored element `setAttribute` fails with a
NamespaceError, while on a non-HTML element the same name (when it does
not itself begin with the lowercase `"xmlns"`) is accepted and creates the
attribute. -/
theorem c10_xmlns_check_on_normalized_name (st : Attributes) (q : String) (v : JSVal)
    (hvalid : isValidName q = true)
    (hlow : (jsToLower q).take 5 = "xmlns") :
    (st.isHTML = true → setAttribute st q v = Except.error DOMErr.namespaceErr) ∧
    (st.isHTML = false → ¬ q.take 5 = "xmlns" →
      ∃ st', setAttribute st q v = Except.ok st' ∧ hasAttribute st' q = true) := by
  constructor
  · intro hhtml
    have hn : normalizeQName st q = jsToLower q := by
      unfold normalizeQName
      rw [hhtml]
      rfl
    unfold setAttribute
    rw [if_neg (by simp [hvalid]), hn, if_pos hlow]
  · intro hhtml hq5
    have hn : normalizeQName st q = q := by
      unfold normalizeQName
      rw [hhtml]
      rfl
    unfold setAttribute
    rw [if_neg (by simp [hvalid]), hn, if_neg hq5]
    cases heq : alookup q st.byQName with
    | none =>
      refine ⟨_, rfl, ?_⟩
      have hhtml' : (setAttrValue (newAttr st q).2 (newAttr st q).1 v).isHTML =
          st.isHTML := by
        rw [setAttrValue_isHTML]
        rfl
      unfold hasAttribute
      rw [normalizeQName_of_isHTML_eq st _ q hhtml', hn, setAttrValue_byQName]
      show (alookup q (aset q (QEntry.one st.nextId) st.byQName)).isSome = true
      rw [alookup_aset_self]
      rfl
    | some e =>
      refine ⟨_, rfl, ?_⟩
      have hhtml' : (setAttrValue st (firstOf e) v).isHTML = st.isHTML :=
        setAttrValue_isHTML _ _ _
      unfold hasAttribute
      rw [normalizeQName_of_isHTML_eq st _ q hhtml', hn, setAttrValue_byQName, heq]
      rfl

/-- Witness for C10 at the concrete name `"XMLNSfoo"` and value `"y"`: on
the empty HTML collection the call is rejected with a NamespaceError, and
on the empty non-HTML collection it succeeds and the attribute is
present. -/
theorem c10_witness :
    setAttribute (mkAttributes true []) "XMLNSfoo" (JSVal.str "y") =
      Except.error DOMErr.namespaceErr ∧
    ∃ st', setAttribute (mkAttributes false []) "XMLNSfoo" (JSVal.str "y") =
      Except.ok st' ∧ hasAttribute st' "XMLNSfoo" = true :=
  ⟨(c10_xmlns_check_on_normalized_name (mkAttributes true []) "XMLNSfoo" (JSVal.str "y")
      (by decide) (by decide)).1 rfl,
   (c10_xmlns_check_on_normalized_name (mkAttributes false []) "XMLNSfoo" (JSVal.str "y")
      (by decide) (by decide)).2 rfl (by decide)⟩

/-- C2: the agreement invariant is *not* preserved by every public mutating
operation.  From the empty collection, `setAttributeNS(null, "foo", "x")`
files the node under the namespace key `"null|foo"` (raw string coercion of
the absent namespace), and the subsequent `removeAttribute("foo")` computes
the deletion key as `(attr.namespaceURI || "") + "|" + localName`, i.e.
`"|foo"`: the node leaves the qualified-name index but stays in the
namespace index, so the indices disagree afterwards. -/
theorem c2_invariant_broken_by_remove :
    (setAttributeNS (mkAttributes false []) JSVal.null "foo" (JSVal.str "x")).map
      (fun st => (agree st, agree (removeAttribute st "foo"))) =
    Except.ok (true, false) := by decide

/-- C3 (counterexample): after `setNS(nsA, "foo", "x")` then
`set("foo", "y")` the collection holds exactly one node, not two, and
`get("foo")` returns `"y"` (the second value) rather than the
first-inserted `"x"` — the plain `set` finds the namespaced node by
qualified name and mutates it instead of creating a second node. -/
theorem c3_counterexample :
    (c3trace.map (fun st => (st.length, getAttribute st "foo")) =
      Except.ok (1, JSVal.str "y")) ∧
    c3trace.map (fun st => getAttribute st "foo") ≠ Except.ok (JSVal.str "x") := by
  decide

/-- C3 (amended): `setNS(nsA, "foo", "x")` then `set("foo", "y")` leaves a
single node, reachable both as qualified name `"foo"` (value `"y"`) and
under the namespaced key (also `"y"`); `remove("foo")` removes that one
node, after which nothing is retrievable under either key. -/
theorem c3_single_node_mutated :
    c3trace.map (fun st =>
      (st.length, getAttribute st "foo", getAttributeNS st (JSVal.str "http://a") "foo",
       hasAttribute (removeAttribute st "foo") "foo",
       getAttributeNS (removeAttribute st "foo") (JSVal.str "http://a") "foo",
       (removeAttribute st "foo").length)) =
    Except.ok (1, JSVal.str "y", JSVal.str "y", false, JSVal.null, 0) := by decide

/-- C4: removing the sole node for `"foo"` (declared with an onchange hook,
current value `"v"`) fires the hook exactly once, but with `undefined` for
both the localName and the old value — the source passes `this.localName`
and `this.idlvalue` where `this` is the collection — instead of the removed
node's localName `"foo"` and old value `"v"` required by the spec. -/
theorem c4_remove_onchange_args :
    ((setAttribute (mkAttributes false [("foo", { onchange := true })]) "foo"
        (JSVal.str "v")).map
      (fun st =>
        ((removeAttribute st "foo").events.length - st.events.length,
         (removeAttribute st "foo").events.headD (Event.mutateRemoveAttr 0))) =
      Except.ok (1, Event.onchange JSVal.undef JSVal.undef JSVal.null)) ∧
    Event.onchange JSVal.undef JSVal.undef JSVal.null ≠
      Event.onchange (JSVal.str "foo") (JSVal.str "v") JSVal.null := by decide

/-- C5: the raw reflected `set` does *not* flow through the node-level
value funnel.  From an empty collection whose `"id"` declaration has an
onchange hook, `set("id", "x")` assigns the dead `idlvalue` property: the
public `getAttribute("id")` still sees `undefined` (not `"x"`) and no
onchange hook fires at all. -/
theorem c5_rawset_skips_funnel :
    ((let st := Attributes.set (mkAttributes false [("id", { onchange := true })]) "id"
        (JSVal.str "x")
      (getAttribute st "id", st.events)) = (JSVal.undef, ([] : List Event))) ∧
    JSVal.undef ≠ JSVal.str "x" := by decide

/-- C6: the raw reflected `get` does not return the node's literal value.
After `setAttribute("id", "x")` (which stores `"x"` in `attr.data`), the
raw `get("id")` reads the never-written `attr.idlvalue` and returns
`undefined` rather than `"x"`; the empty-string result for a missing node
does hold. -/
theorem c6_rawget_returns_undefined :
    ((setAttribute (mkAttributes false []) "id" (JSVal.str "x")).map
      (fun st => Attributes.get st "id") = Except.ok JSVal.undef) ∧
    Attributes.get (mkAttributes false []) "id" = JSVal.str "" ∧
    JSVal.undef ≠ JSVal.str "x" := by decide

/-- C7: empty and absent namespaces are *not* normalized to compare equal.
A node created by `setAttributeNS(null, "foo", "x")` lives under the key
`"null|foo"`: `getAttributeNS(null, ...)` finds it but
`getAttributeNS("", ...)` and `hasAttributeNS("", ...)` do not; conversely
a node created by the plain `set("foo", "y")` lives under `"|foo"` and is
found with the empty-string namespace but not with the absent one. -/
theorem c7_null_empty_namespace_diverge :
    ((setAttributeNS (mkAttributes false []) JSVal.null "foo" (JSVal.str "x")).map
      (fun st =>
        (getAttributeNS st JSVal.null "foo", getAttributeNS st (JSVal.str "") "foo",
         hasAttributeNS st (JSVal.str "") "foo")) =
      Except.ok (JSVal.str "x", JSVal.null, false)) ∧
    ((setAttribute (mkAttributes false []) "foo" (JSVal.str "y")).map
      (fun st =>
        (getAttributeNS st (JSVal.str "") "foo", getAttributeNS st JSVal.null "foo")) =
      Except.ok (JSVal.str "y", JSVal.null)) := by decide

/-- C8: `reflectAttribute` never consults the `boolean` flag, so the
generated setter stores the boolean value itself: assigning `false` leaves
`has("disabled")` equal to `true` (the attribute is not removed), and
assigning `true` leaves `get("disabled")` equal to the boolean `true`
rather than the empty string. -/
theorem c8_boolean_flag_ignored :
    ((reflSetter disabledDecl "disabled" (JSVal.bool false)
        (mkAttributes false [("disabled", disabledDecl)])).map
      (fun st => hasAttribute st "disabled") = Except.ok true) ∧
    ((reflSetter disabledDecl "disabled" (JSVal.bool true)
        (mkAttributes false [("disabled", disabledDecl)])).map
      (fun st => getAttribute st "disabled") = Except.ok (JSVal.bool true)) ∧
    JSVal.bool true ≠ JSVal.str "" := by decide

/-- C9: after `set("dir", "sideways")` the raw value is preserved
(`get("dir") = "sideways"`) and the typed getter yields the empty-string
default, as claimed; but when the content attribute is absent the typed
getter does *not* return the empty string — it calls
`null.toLowerCase()` inside the synthesized conversion and throws a
TypeError. -/
theorem c9_enum_absent_throws :
    ((setAttribute (mkAttributes false [("dir", dirDecl)]) "dir"
        (JSVal.str "sideways")).map
      (fun st => (getAttribute st "dir", reflGetter dirDecl "dir" st)) =
      Except.ok (JSVal.str "sideways", Except.ok (JSVal.str ""))) ∧
    reflGetter dirDecl "dir" (mkAttributes false [("dir", dirDecl)]) =
      Except.error JSErr.typeError := by decide
